import Mathlib

/-!
Verification of the Task Orchestration & Provider Session Engine of the
tt-bot repository, shallowly embedded in Lean 4.

The embedding follows the JavaScript source:
  * `BaseProvider` (circuit breaker / rate limiting) from `providers/baseProvider.js`;
  * `TikTokService` (task orchestration, retry protocol, active/history stores)
    from `services/tiktokService.js`;
  * configuration constants from `config` (e.g. `tiktok.maxRetries`).
Timestamps (`Date.now()`) are modelled as integers passed explicitly;
asynchronous `await` points are modelled by splitting each async method into a
synchronous start phase and a resume phase, and the interleavings are captured
by a small-step relation over configurations carrying the pending events
(in-flight executions and scheduled retry timers).
-/

namespace TTBot

/-! ## Provider state (BaseProvider, src/unnamed/part_001)

One record per registered backend.  `betweenActions` is the provider's
configured inter-action delay (`this.config.delays.betweenActions`). -/

structure ProviderState where
  providerName : String
  isAvailable : Bool
  lastActionTime : Int
  actionCount : Nat
  errorCount : Nat
  betweenActions : Int
deriving DecidableEq, Repr

/-- BaseProvider.checkAvailability.  The JS method only reads fields (and
logs); we model it as a state transformer returning the (unchanged) state so
that the frame property is a theorem rather than a modelling choice. -/
def checkAvailability (p : ProviderState) (now : Int) : Bool × ProviderState :=
  if p.isAvailable = false then
    (false, p)
  else
    let timeSinceLast := now - p.lastActionTime
    if timeSinceLast < p.betweenActions then
      (false, p)
    else
      (true, p)

/-- BaseProvider.updateStats.  `maxRetries` is `config.tiktok.maxRetries`,
the threshold the JS code compares `errorCount` against. -/
def updateStats (maxRetries : Nat) (p : ProviderState) (success : Bool) (now : Int) :
    ProviderState :=
  let p1 := { p with lastActionTime := now, actionCount := p.actionCount + 1 }
  if success then
    { p1 with errorCount := 0 }
  else
    let p2 := { p1 with errorCount := p1.errorCount + 1 }
    if maxRetries ≤ p2.errorCount then
      { p2 with isAvailable := false }
    else
      p2

/-- BaseProvider.resetAvailability. -/
def resetAvailability (p : ProviderState) : ProviderState :=
  { p with isAvailable := true, errorCount := 0 }

/-- Field `timeSinceLastAction` of the `getStats()` snapshot. -/
def timeSinceLastAction (p : ProviderState) (now : Int) : Int :=
  now - p.lastActionTime

/-- The operations that can touch a provider's own state. -/
inductive ProviderOp where
  | update (success : Bool) (now : Int)
  | reset
  | check (now : Int)
deriving DecidableEq, Repr

/-- Effect of one provider operation on the provider state. -/
def applyOp (maxRetries : Nat) (p : ProviderState) : ProviderOp → ProviderState
  | .update s now => updateStats maxRetries p s now
  | .reset => resetAvailability p
  | .check now => (checkAvailability p now).2

theorem checkAvailability_state_eq (p : ProviderState) (now : Int) :
    (checkAvailability p now).2 = p := by
  unfold checkAvailability
  split
  · rfl
  · dsimp only
    split <;> rfl

theorem updateStats_isAvailable_mono (maxRetries : Nat) (p : ProviderState)
    (success : Bool) (now : Int) (h : p.isAvailable = false) :
    (updateStats maxRetries p success now).isAvailable = false := by
  unfold updateStats
  cases success <;> simp only [Bool.false_eq_true, if_false, if_true]
  · split <;> simp [h]
  · simpa using h

/-- Claim C4 — circuit breaker: a failure that brings `errorCount` to the
configured threshold flips `isAvailable` to false; once false, `isAvailable`
stays false under any sequence of `updateStats`/`checkAvailability` operations
(no passage of time restores it) until `resetAvailability`, which sets
`isAvailable = true` and `errorCount = 0`; any successful `updateStats` resets
`errorCount` to 0. -/
theorem circuit_breaker_latch (maxRetries : Nat) :
    (∀ (p : ProviderState) (now : Int), maxRetries ≤ p.errorCount + 1 →
       (updateStats maxRetries p false now).isAvailable = false)
  ∧ (∀ (p : ProviderState) (ops : List ProviderOp), p.isAvailable = false →
       (∀ o ∈ ops, o ≠ ProviderOp.reset) →
       (ops.foldl (applyOp maxRetries) p).isAvailable = false)
  ∧ (∀ p : ProviderState,
       (resetAvailability p).isAvailable = true ∧ (resetAvailability p).errorCount = 0)
  ∧ (∀ (p : ProviderState) (now : Int),
       (updateStats maxRetries p true now).errorCount = 0) := by
  refine ⟨?thresh, ?latch, ?reset, ?succ⟩
  case thresh =>
    intro p now h
    unfold updateStats
    simp only [Bool.false_eq_true, if_false]
    split
    · rfl
    · omega
  case latch =>
    intro p ops hoff hnr
    induction ops generalizing p with
    | nil => exact hoff
    | cons o rest ih =>
      have hrest : ∀ x ∈ rest, x ≠ ProviderOp.reset := fun x hx => hnr x (List.mem_cons_of_mem o hx)
      simp only [List.foldl_cons]
      apply ih _ _ hrest
      cases o with
      | update s now => exact updateStats_isAvailable_mono maxRetries p s now hoff
      | reset => exact absurd rfl (hnr ProviderOp.reset (List.mem_cons_self _ _))
      | check now => simp only [applyOp, checkAvailability_state_eq]; exact hoff
  case reset =>
    intro p
    exact ⟨rfl, rfl⟩
  case succ =>
    intro p now
    rfl

/-- Sample provider with two consecutive errors already recorded. -/
def pTwoErrs : ProviderState :=
  { providerName := "zefoy", isAvailable := true, lastActionTime := 0,
    actionCount := 2, errorCount := 2, betweenActions := 30000 }

/-- Sample provider whose circuit is open. -/
def pOpen : ProviderState :=
  { providerName := "zefoy", isAvailable := false, lastActionTime := 100,
    actionCount := 3, errorCount := 3, betweenActions := 30000 }

theorem circuit_breaker_latch_witness :
    (updateStats 3 pTwoErrs false 500).isAvailable = false
  ∧ (([ProviderOp.update true 600, ProviderOp.check 700000,
       ProviderOp.update false 800]).foldl (applyOp 3) pOpen).isAvailable = false
  ∧ (resetAvailability pOpen).isAvailable = true
  ∧ (updateStats 3 pTwoErrs true 500).errorCount = 0 := by
  refine ⟨(circuit_breaker_latch 3).1 pTwoErrs 500 (by decide),
          (circuit_breaker_latch 3).2.1 pOpen _ (by decide) (by decide),
          ((circuit_breaker_latch 3).2.2.1 pOpen).1,
          (circuit_breaker_latch 3).2.2.2 pTwoErrs 500⟩

/-- Claim C9 — checkAvailability returns false when the circuit is open,
returns false when the time since the last action is below the configured
inter-action delay, and in every case leaves the provider state unchanged. -/
theorem checkAvailability_frame (p : ProviderState) (now : Int) :
    (p.isAvailable = false → (checkAvailability p now).1 = false)
  ∧ (now - p.lastActionTime < p.betweenActions → (checkAvailability p now).1 = false)
  ∧ (checkAvailability p now).2 = p := by
  refine ⟨?off, ?rate, checkAvailability_state_eq p now⟩
  case off =>
    intro h
    unfold checkAvailability
    simp [h]
  case rate =>
    intro h
    unfold checkAvailability
    split
    · rfl
    · simp [h]

theorem checkAvailability_frame_witness :
    (checkAvailability pOpen 999999).1 = false
  ∧ (checkAvailability pTwoErrs 10).1 = false
  ∧ (checkAvailability pTwoErrs 10).2 = pTwoErrs := by
  exact ⟨(checkAvailability_frame pOpen 999999).1 (by decide),
         (checkAvailability_frame pTwoErrs 10).2.1 (by decide),
         (checkAvailability_frame pTwoErrs 10).2.2⟩

/-! ## URL validation (TikTokService.validateVideoUrl)

The JS test is
`/^https?:\/\/(www\.)?(tiktok\.com|vm\.tiktok\.com|vt\.tiktok\.com)\/.+/i.test(videoUrl)`.
All literal alternatives of this pattern are mutually exclusive at every choice
point (no string can both start with "www." and with one of the domain
literals, the three domain literals differ pairwise at their first two
characters, and "s://" vs "://" differ at the first character), so regex
backtracking never changes the outcome and the matcher below, which commits to
each prefix greedily, computes the same boolean.  The `/i` flag is modelled by
lower-casing the subject (the pattern letters are all ASCII).  `.` in a JS
regex matches every character except the four line terminators. -/

/-- Strips a literal character-list from the front of the subject. -/
def stripLit : List Char → List Char → Option (List Char)
  | [], s => some s
  | _ :: _, [] => none
  | c :: cs, d :: ds => if d = c then stripLit cs ds else none

/-- Line terminators that `.` does not match in a JS regex. -/
def isLineTerm (c : Char) : Bool :=
  c = '\n' || c = '\r' || c = Char.ofNat 0x2028 || c = Char.ofNat 0x2029

/-- The anchored TikTok URL pattern, on the lower-cased subject. -/
def tiktokUrlTest (url : String) : Bool :=
  let l := url.data.map Char.toLower
  match stripLit "http".data l with
  | none => false
  | some r0 =>
    let r1 := match stripLit "s://".data r0 with
      | some x => some x
      | none => stripLit "://".data r0
    match r1 with
    | none => false
    | some r2 =>
      let r3 := match stripLit "www.".data r2 with
        | some x => x
        | none => r2
      let r4 := match stripLit "tiktok.com/".data r3 with
        | some x => some x
        | none =>
          match stripLit "vm.tiktok.com/".data r3 with
          | some x => some x
          | none => stripLit "vt.tiktok.com/".data r3
      match r4 with
      | none => false
      | some tail =>
        match tail with
        | [] => false
        | c :: _ => !isLineTerm c

/-- TikTokService.validateVideoUrl.  `none` models a non-string argument
(`null`/`undefined`); the empty string is falsy in JS, so it is rejected by
the `!videoUrl` guard before the regex runs. -/
def validateVideoUrl : Option String → Bool
  | none => false
  | some u => if u = "" then false else tiktokUrlTest u

/-- TikTokService.getAvailableActions. -/
def getAvailableActions : List String :=
  ["views", "likes", "shares", "favorites", "followers", "comments"]

example : validateVideoUrl (some "https://www.tiktok.com/@user/video/123") = true := by decide
example : validateVideoUrl (some "https://vm.tiktok.com/abc123/") = true := by decide
example : validateVideoUrl (some "HTTP://TikTok.com/x") = true := by decide
example : validateVideoUrl (some "https://youtube.com/watch?v=123") = false := by decide
example : validateVideoUrl (some "not-a-url") = false := by decide

/-! ## Task model (TikTokService, src/scripts/setup.js lines 861-1313)

A `Task` mirrors the JS task record.  JS objects are shared by reference
between the active store, the history store and the closures of in-flight
async calls; we model the heap of task objects as a map `String → Option Task`
keyed by the (unique, uuid-generated) task id, while `active` and `history`
hold the ids, exactly as `Map` keys and array entries of object references
do. -/

inductive TaskStatus where
  | pending
  | running
  | retrying
  | completed
  | failed
  | cancelled
deriving DecidableEq, Repr

/-- Terminal statuses: completed, failed, cancelled. -/
def isTerminal : TaskStatus → Bool
  | .completed => true
  | .failed => true
  | .cancelled => true
  | _ => false

/-- The options bag passed to performAction; only `maxAttempts` is read.
`none` models an absent/`null`/`undefined` field. -/
structure TaskOptions where
  maxAttempts : Option Int := none
deriving DecidableEq, Repr

/-- Structured result of a provider execution (`executeAction` never throws:
it converts exceptions into `{success: false, error}` results). -/
structure ActionResult where
  success : Bool
  error : Option String := none
deriving DecidableEq, Repr

structure Task where
  id : String
  videoUrl : String
  actionType : String
  options : TaskOptions
  status : TaskStatus
  createdAt : Int
  attempts : Int
  maxAttempts : Int
  provider : Option String := none
  error : Option String := none
  completedAt : Option Int := none
  cancelledAt : Option Int := none
  hasResult : Bool := false
deriving DecidableEq, Repr

/-- JS `options.maxAttempts || config.tiktok.maxRetries`: `null`, `undefined`
and `0` are falsy, so they fall back to the configured default. -/
def resolveMaxAttempts (defMax : Int) (o : TaskOptions) : Int :=
  match o.maxAttempts with
  | none => defMax
  | some n => if n = 0 then defMax else n

/-- State of the TikTokService singleton. -/
structure Svc where
  providers : List (String × ProviderState)
  tasks : String → Option Task
  active : List String
  history : List String

/-- Dereference a task object by id. -/
def getTask (s : Svc) (tid : String) : Option Task :=
  s.tasks tid

/-- Mutation of the task object with id `tid` (all JS field writes to a task
go through this). -/
def setTask (s : Svc) (tid : String) (t : Task) : Svc :=
  { s with tasks := fun k => if k = tid then some t else s.tasks k }

/-- `this.activeTasks.get(taskId)`. -/
def activeGet (s : Svc) (tid : String) : Option Task :=
  if tid ∈ s.active then getTask s tid else none

/-- `Map.set` on the active store: an existing key keeps its position, a new
key is appended in insertion order. -/
def addActive (l : List String) (tid : String) : List String :=
  if tid ∈ l then l else l ++ [tid]

/-- `this.activeTasks.delete(taskId)`. -/
def removeId (l : List String) (tid : String) : List String :=
  l.filter (fun x => x ≠ tid)

/-- The `slice(-1000)` bound applied after each history push. -/
def trunc1000 (l : List String) : List String :=
  if 1000 < l.length then l.drop (l.length - 1000) else l

/-- Last `n` entries of a list (`slice(-n)` on a possibly longer list). -/
def lastN (n : Nat) (l : List α) : List α :=
  l.drop (l.length - n)

/-- TikTokService.completeTask: delete from the active store, push onto
history, keep only the last 1000 history entries. -/
def completeTask (s : Svc) (tid : String) : Svc :=
  { s with active := removeId s.active tid,
           history := trunc1000 (s.history ++ [tid]) }

/-- Lookup in the provider registry (`this.providers.get(name)`). -/
def lookupProvider (l : List (String × ProviderState)) (name : String) :
    Option ProviderState :=
  (l.find? (fun kv => kv.1 = name)).map (·.2)

/-! ## Provider selection (TikTokService.findAvailableProvider)

The JS code filters registered providers by `checkAvailability()` (in `Map`
insertion order), then sorts in place with the comparator
`(a, b) => aErr - bErr` if the error counts differ, else
`aTimeSince - bTimeSince`, and returns element 0.  `Array.prototype.sort` is
stable and the comparator is a consistent total preorder, so the result is the
unique stable sort; `insertAfterRun`/`stableSort` below compute exactly that. -/

/-- Comparator of findAvailableProvider as a boolean "a before-or-tied b". -/
def selLe (now : Int) (a b : ProviderState) : Bool :=
  if a.errorCount ≠ b.errorCount then
    a.errorCount < b.errorCount
  else
    timeSinceLastAction a now ≤ timeSinceLastAction b now

/-- Inserts `x` after every element it ties with (stability: `x` arrived
later than everything already in the accumulator). -/
def insertAfterRun (le : ProviderState → ProviderState → Bool) (x : ProviderState) :
    List ProviderState → List ProviderState
  | [] => [x]
  | y :: ys => if le y x then y :: insertAfterRun le x ys else x :: y :: ys

/-- Stable sort by left-to-right insertion. -/
def stableSort (le : ProviderState → ProviderState → Bool)
    (l : List ProviderState) : List ProviderState :=
  l.foldl (fun acc x => insertAfterRun le x acc) []

/-- TikTokService.findAvailableProvider.  The `actionType` argument is
accepted but, as in the source, never used for filtering. -/
def findAvailableProvider (s : Svc) (_actionType : String) (now : Int) :
    Option ProviderState :=
  let avail := (s.providers.map (·.2)).filter (fun p => (checkAvailability p now).1)
  if avail.isEmpty then none
  else (stableSort (selLe now) avail).head?

/-! ## Orchestrator operations

`performAction` and `retryTask` are `async` and suspend at
`await this.executeAction(...)`; each is split at that point into a start
phase (everything before the await) and a resume phase (everything after,
applied to the `ActionResult` that the await produced).  Between the two
phases other operations — in particular `cancelTask` — may run.  The JS local
variable `task` is a reference to the heap object, so the resume phases
re-read the object through `getTask`. -/

/-- Outcome of the synchronous part of TikTokService.performAction. -/
inductive SubmitOutcome where
  | rejected (r : ActionResult)
  | failedNoProvider (r : ActionResult)
  | started (tid : String) (providerName : String)
deriving DecidableEq, Repr

/-- TikTokService.performAction up to the await of executeAction:
validation, task creation, provider selection, binding, `running`.
`tid` is the freshly generated uuid; `defMax` is `config.tiktok.maxRetries`. -/
def performActionStart (s : Svc) (tid : String) (videoUrl : Option String)
    (actionType : String) (options : TaskOptions) (defMax : Int) (now : Int) :
    SubmitOutcome × Svc :=
  if validateVideoUrl videoUrl = false then
    (.rejected { success := false, error := some "Invalid TikTok video URL" }, s)
  else if getAvailableActions.contains actionType = false then
    (.rejected { success := false,
                 error := some ("Invalid action type: " ++ actionType) }, s)
  else
    let task : Task :=
      { id := tid, videoUrl := videoUrl.getD "", actionType := actionType,
        options := options, status := .pending, createdAt := now,
        attempts := 0, maxAttempts := resolveMaxAttempts defMax options }
    let s1 : Svc :=
      { s with tasks := fun k => if k = tid then some task else s.tasks k,
               active := addActive s.active tid }
    match findAvailableProvider s1 actionType now with
    | none =>
      let task1 := { task with status := .failed,
                               error := some "No available providers" }
      (.failedNoProvider { success := false,
                           error := some "No available providers for this action" },
       completeTask (setTask s1 tid task1) tid)
    | some p =>
      let task1 := { task with provider := some p.providerName, status := .running }
      (.started tid p.providerName, setTask s1 tid task1)

/-- TikTokService.performAction after the await: on success the task is
completed and moved to history; on failure `attempts` is incremented and the
task either turns `retrying` (a retry timer is scheduled — the returned flag)
or is finalized as `failed`. -/
def performActionFinish (s : Svc) (tid : String) (r : ActionResult) (now : Int) :
    Svc × Bool :=
  match getTask s tid with
  | none => (s, false)
  | some task =>
    if r.success then
      let task1 := { task with status := .completed, completedAt := some now,
                               hasResult := true }
      (completeTask (setTask s tid task1) tid, false)
    else
      let task1 := { task with status := .failed, error := r.error,
                               attempts := task.attempts + 1 }
      if task1.attempts < task1.maxAttempts then
        (setTask s tid { task1 with status := .retrying }, true)
      else
        (completeTask (setTask s tid task1) tid, false)

/-- Outcome of the synchronous guard of TikTokService.retryTask. -/
inductive RetryStartOutcome where
  | noop
  | providerMissing (pname : Option String)
  | exec (providerName : String)
deriving DecidableEq, Repr

/-- TikTokService.retryTask up to the await: the no-op guard
(`!task || task.status !== 'retrying'`) and the provider lookup. -/
def retryTaskStart (s : Svc) (tid : String) : RetryStartOutcome :=
  match activeGet s tid with
  | none => .noop
  | some task =>
    if task.status ≠ TaskStatus.retrying then .noop
    else
      match task.provider with
      | none => .providerMissing none
      | some pname =>
        match lookupProvider s.providers pname with
        | none => .providerMissing (some pname)
        | some _ => .exec pname

/-- The catch branch of retryTask (provider missing / execution threw):
the task is failed, `attempts` incremented, and moved to history. -/
def retryTaskFailPath (s : Svc) (tid : String) (errMsg : String) : Svc :=
  match getTask s tid with
  | none => s
  | some task =>
    let task1 := { task with status := .failed, error := some errMsg,
                             attempts := task.attempts + 1 }
    completeTask (setTask s tid task1) tid

/-- Synchronous effect of the retry timer firing (retryTask up to the await):
the no-op branch and the exec branch leave the state untouched, the
provider-missing branch fails the task via the catch. -/
def retryFire (s : Svc) (tid : String) : Svc :=
  match retryTaskStart s tid with
  | .noop => s
  | .providerMissing pname =>
    retryTaskFailPath s tid ("Provider not found: " ++ pname.getD "undefined")
  | .exec _ => s

/-- TikTokService.retryTask after the await: success completes the task,
failure increments `attempts` and fails it; either way the task is moved to
history — no further retry is ever scheduled here. -/
def retryTaskFinish (s : Svc) (tid : String) (r : ActionResult) (now : Int) : Svc :=
  match getTask s tid with
  | none => s
  | some task =>
    if r.success then
      let task1 := { task with status := .completed, completedAt := some now,
                               hasResult := true }
      completeTask (setTask s tid task1) tid
    else
      let task1 := { task with status := .failed, error := r.error,
                               attempts := task.attempts + 1 }
      completeTask (setTask s tid task1) tid

/-- TikTokService.cancelTask. -/
def cancelTask (s : Svc) (tid : String) (now : Int) : Bool × Svc :=
  match activeGet s tid with
  | none => (false, s)
  | some task =>
    let task1 := { task with status := .cancelled, cancelledAt := some now }
    (true, completeTask (setTask s tid task1) tid)

/-! ## Concrete sample states -/

/-- Freshly constructed zefoy provider (BaseProvider constructor state with
the zefoy `betweenActions` delay of 30000ms). -/
def zefoy0 : ProviderState :=
  { providerName := "zefoy", isAvailable := true, lastActionTime := 0,
    actionCount := 0, errorCount := 0, betweenActions := 30000 }

/-- Service with the single zefoy provider and empty stores, as built by the
TikTokService constructor. -/
def svc0 : Svc :=
  { providers := [("zefoy", zefoy0)], tasks := fun _ => none,
    active := [], history := [] }

def validUrl : String := "https://www.tiktok.com/@user/video/123"

example :
    (performActionStart svc0 "t1" (some validUrl) "views" {} 3 50000).1
      = SubmitOutcome.started "t1" "zefoy" := by decide

example :
    (getTask (performActionStart svc0 "t1" (some validUrl) "views" {} 3 50000).2 "t1").map
      (·.status) = some TaskStatus.running := by decide

/-! ## Claim C1 — retry bound

Run the default configuration (`maxRetries = 3`) against a provider whose
execution fails on every attempt: submit, first execution fails
(`attempts = 1 < 3`, task → `retrying`, one retry scheduled), the retry timer
fires, the retry execution fails.  `retryTask` finalizes the task as `failed`
without consulting `maxAttempts`, so the task ends with `attempts = 2` after a
single `retrying` transition — not `maxAttempts − 1 = 2` retrying transitions
and `attempts = 3` as claimed. -/

def failRes : ActionResult := { success := false, error := some "Action did not complete successfully" }

def c1AfterStart : Svc :=
  (performActionStart svc0 "t1" (some validUrl) "views" {} 3 50000).2

def c1AfterFirstFail : Svc × Bool :=
  performActionFinish c1AfterStart "t1" failRes 50010

def c1Final : Svc :=
  retryTaskFinish c1AfterFirstFail.1 "t1" failRes 50020

/-- Claim C1, evaluated at the failing input (maxAttempts = 3, every attempt
fails): exactly one retry is scheduled, the retry guard passes with the bound
provider, and the task is finalized `failed` with `attempts = 2` and
`maxAttempts = 3` — one `retrying` report and final attempts 2, not two
`retrying` reports and final attempts 3. -/
theorem retry_bound_code_bug :
    c1AfterFirstFail.2 = true
  ∧ (getTask c1AfterFirstFail.1 "t1").map (·.status) = some TaskStatus.retrying
  ∧ (getTask c1AfterFirstFail.1 "t1").map (·.attempts) = some 1
  ∧ retryTaskStart c1AfterFirstFail.1 "t1" = RetryStartOutcome.exec "zefoy"
  ∧ (getTask c1Final "t1").map (·.status) = some TaskStatus.failed
  ∧ (getTask c1Final "t1").map (·.attempts) = some 2
  ∧ (getTask c1Final "t1").map (·.maxAttempts) = some 3
  ∧ c1Final.history = ["t1"]
  ∧ c1Final.active = [] := by
  refine ⟨rfl, by decide, by decide, by decide, by decide, by decide, by decide, rfl, rfl⟩

/-! ## Claim C2 — provider selection tie-break

Two available providers with equal `errorCount`; `provFresh` has been idle for
600000ms, `provRecent` for 100000ms.  The comparator in
`findAvailableProvider` returns `aTimeSince - bTimeSince`, i.e. sorts the time
since the last action *ascending*, so the provider idle *shortest* ends up
first — contradicting both the claim and the code's own comment ("prefer
providers with fewer errors and longer time since last action"). -/

def provRecent : ProviderState :=
  { providerName := "zefoy", isAvailable := true, lastActionTime := 500000,
    actionCount := 5, errorCount := 0, betweenActions := 30000 }

def provFresh : ProviderState :=
  { providerName := "freer", isAvailable := true, lastActionTime := 0,
    actionCount := 5, errorCount := 0, betweenActions := 25000 }

def svcC2 : Svc :=
  { providers := [("zefoy", provRecent), ("freer", provFresh)],
    tasks := fun _ => none, active := [], history := [] }

/-- Claim C2, evaluated at the failing input: both providers are available
and have equal error counts, "freer" has been idle six times longer, yet
selection returns "zefoy" — the candidate with the *smallest*
`timeSinceLastAction`, refuting "the provider idle longest is chosen". -/
theorem selection_tiebreak_code_bug :
    (checkAvailability provRecent 600000).1 = true
  ∧ (checkAvailability provFresh 600000).1 = true
  ∧ provRecent.errorCount = provFresh.errorCount
  ∧ timeSinceLastAction provRecent 600000 < timeSinceLastAction provFresh 600000
  ∧ (findAvailableProvider svcC2 "views" 600000).map (·.providerName)
      = some "zefoy" := by
  refine ⟨by decide, by decide, rfl, by decide, by decide⟩

/-! ## Claim C3 — store exclusivity, counterexample

`cancelTask` runs while the provider call of "t1" is still in flight
(between `performActionStart` and `performActionFinish`).  The cancel moves
the task to history; when the in-flight call resumes, it pushes the very same
task to history a second time, so "t1" occurs twice in the history store. -/

def c3AfterStart : Svc :=
  (performActionStart svc0 "t1" (some validUrl) "views" {} 3 50000).2

def c3AfterCancel : Bool × Svc := cancelTask c3AfterStart "t1" 50001

def c3Final : Svc :=
  (performActionFinish c3AfterCancel.2 "t1" { success := true } 50002).1

/-- Claim C3 is false as stated: after submitting "t1" (provider call in
flight), cancelling it, and letting the in-flight call complete, the history
store contains "t1" twice — the task was moved to history twice for a single
terminal transition, not "exactly once". -/
theorem cancel_in_flight_duplicates :
    (performActionStart svc0 "t1" (some validUrl) "views" {} 3 50000).1
      = SubmitOutcome.started "t1" "zefoy"
  ∧ c3AfterCancel.1 = true
  ∧ (getTask c3AfterCancel.2 "t1").map (·.status) = some TaskStatus.cancelled
  ∧ c3Final.active = []
  ∧ c3Final.history = ["t1", "t1"] := by
  refine ⟨by decide, rfl, by decide, rfl, rfl⟩

/-! ## Basic lemmas about the store operations -/

theorem getTask_setTask_self (s : Svc) (tid : String) (t : Task) :
    getTask (setTask s tid t) tid = some t := by
  simp [getTask, setTask]

theorem getTask_setTask_ne (s : Svc) (tid k : String) (t : Task) (h : k ≠ tid) :
    getTask (setTask s tid t) k = getTask s k := by
  simp [getTask, setTask, h]

theorem getTask_completeTask (s : Svc) (tid k : String) :
    getTask (completeTask s tid) k = getTask s k := rfl

theorem mem_removeId {l : List String} {x tid : String} :
    x ∈ removeId l tid ↔ x ∈ l ∧ x ≠ tid := by
  simp [removeId]

theorem not_mem_removeId_self (l : List String) (tid : String) :
    tid ∉ removeId l tid := by
  simp [mem_removeId]

theorem nodup_removeId {l : List String} (h : l.Nodup) (tid : String) :
    (removeId l tid).Nodup :=
  h.filter _

theorem mem_of_mem_trunc1000 {l : List String} {x : String}
    (h : x ∈ trunc1000 l) : x ∈ l := by
  unfold trunc1000 at h
  split at h
  · exact List.mem_of_mem_drop h
  · exact h

theorem nodup_trunc1000 {l : List String} (h : l.Nodup) : (trunc1000 l).Nodup := by
  unfold trunc1000
  split
  · exact (List.drop_sublist _ _).nodup h
  · exact h

theorem self_mem_trunc1000_append (l : List String) (tid : String) :
    tid ∈ trunc1000 (l ++ [tid]) := by
  unfold trunc1000
  split
  · rw [List.drop_append_eq_append_drop]
    have h0 : (l ++ [tid]).length - 1000 - l.length = 0 := by
      rw [List.length_append, List.length_singleton]
      omega
    rw [h0, List.drop_zero]
    exact List.mem_append_right _ (List.mem_singleton_self tid)
  · exact List.mem_append_right _ (List.mem_singleton_self tid)

/-! ## Claim C5 — bounded FIFO history -/

theorem trunc1000_length (l : List String) :
    (trunc1000 l).length = min l.length 1000 := by
  unfold trunc1000
  split
  · rw [List.length_drop]; omega
  · omega

theorem trunc1000_eq_lastN (l : List String) : trunc1000 l = lastN 1000 l := by
  unfold trunc1000 lastN
  split
  · rfl
  · have h0 : l.length - 1000 = 0 := by omega
    rw [h0, List.drop_zero]

theorem lastN_append_lastN (n : Nat) (l ids : List α) :
    lastN n (lastN n l ++ ids) = lastN n (l ++ ids) := by
  unfold lastN
  rcases le_or_lt l.length n with h | h
  · have h0 : l.length - n = 0 := by omega
    rw [h0, List.drop_zero]
  · rw [List.drop_append_eq_append_drop, List.drop_append_eq_append_drop,
        List.drop_drop]
    have hlen : (l.drop (l.length - n)).length = n := by
      rw [List.length_drop]; omega
    rw [List.length_append, List.length_append, hlen]
    congr 2 <;> omega

theorem foldl_completeTask_history (ids : List String) (s : Svc) :
    (ids.foldl completeTask s).history
      = ids.foldl (fun h tid => trunc1000 (h ++ [tid])) s.history := by
  induction ids generalizing s with
  | nil => rfl
  | cons x xs ih =>
    simp only [List.foldl_cons]
    rw [ih]
    rfl

theorem foldl_histStep (ids : List String) (h : List String)
    (hh : h.length ≤ 1000) :
    ids.foldl (fun acc tid => trunc1000 (acc ++ [tid])) h = lastN 1000 (h ++ ids) := by
  induction ids generalizing h with
  | nil =>
    unfold lastN
    have h0 : h.length - 1000 = 0 := by omega
    simp [h0]
  | cons x xs ih =>
    simp only [List.foldl_cons]
    have hlen : (trunc1000 (h ++ [x])).length ≤ 1000 := by
      rw [trunc1000_length]; omega
    rw [ih _ hlen, trunc1000_eq_lastN, lastN_append_lastN]
    rw [List.append_assoc]
    rfl

/-- Claim C5 — after any sequence of terminal transitions (`completeTask`
pushes), the history store holds exactly the most recent 1000 pushed tasks in
push order (oldest evicted first), and its length is the total number of
pushes capped at 1000.  In particular after more than 1000 terminal tasks the
length stays at exactly 1000. -/
theorem history_bounded_fifo (ids : List String) (s : Svc)
    (h : s.history.length ≤ 1000) :
    (ids.foldl completeTask s).history = lastN 1000 (s.history ++ ids)
  ∧ (ids.foldl completeTask s).history.length
      = min (s.history.length + ids.length) 1000 := by
  have h1 := foldl_completeTask_history ids s
  have h2 := foldl_histStep ids s.history h
  refine ⟨by rw [h1, h2], ?_⟩
  rw [h1, h2]
  unfold lastN
  rw [List.length_drop, List.length_append]
  omega

theorem history_bounded_fifo_witness :
    (["a", "b", "c"].foldl completeTask svc0).history = ["a", "b", "c"]
  ∧ (["a", "b", "c"].foldl completeTask svc0).history.length = 3 := by
  have h := history_bounded_fifo ["a", "b", "c"] svc0 (by decide)
  constructor
  · rw [h.1]; rfl
  · rw [h.2]; decide

/-! ## Claim C6 — validation rejects before task creation -/

/-- Claim C6 — for every target failing URL validation (`null`/non-string,
empty, wrong scheme, unrelated domain) and for every action kind outside the
enumerated set, performAction returns a failure result synchronously, before
any task is created: the returned state is exactly the input state (active
store, history store and provider registry untouched — in particular no
provider was consulted, since selection happens only after task creation). -/
theorem validation_rejects :
    (∀ (s : Svc) (tid : String) (url : Option String) (kind : String)
       (o : TaskOptions) (defMax now : Int),
       validateVideoUrl url = false →
       performActionStart s tid url kind o defMax now
         = (.rejected { success := false,
                        error := some "Invalid TikTok video URL" }, s))
  ∧ (∀ (s : Svc) (tid : String) (url : Option String) (kind : String)
       (o : TaskOptions) (defMax now : Int),
       validateVideoUrl url = true →
       getAvailableActions.contains kind = false →
       performActionStart s tid url kind o defMax now
         = (.rejected { success := false,
                        error := some ("Invalid action type: " ++ kind) }, s))
  ∧ validateVideoUrl none = false
  ∧ validateVideoUrl (some "") = false
  ∧ validateVideoUrl (some "ftp://www.tiktok.com/@u/video/1") = false
  ∧ validateVideoUrl (some "https://www.youtube.com/watch") = false
  ∧ getAvailableActions.contains "boost" = false := by
  refine ⟨?bad, ?kind, by decide, by decide, by decide, by decide, by decide⟩
  case bad =>
    intro s tid url kind o defMax now h
    unfold performActionStart
    simp [h]
  case kind =>
    intro s tid url kind o defMax now h1 h2
    unfold performActionStart
    rw [h1, h2]
    simp

theorem validation_rejects_witness :
    performActionStart svc0 "t9" (some "https://www.youtube.com/watch") "views"
      {} 3 0
      = (.rejected { success := false,
                     error := some "Invalid TikTok video URL" }, svc0)
  ∧ performActionStart svc0 "t9" (some validUrl) "boost" {} 3 0
      = (.rejected { success := false,
                     error := some "Invalid action type: boost" }, svc0) := by
  exact ⟨validation_rejects.1 svc0 "t9" _ "views" {} 3 0 (by decide),
         validation_rejects.2.1 svc0 "t9" (some validUrl) "boost" {} 3 0
           (by decide) (by decide)⟩

/-! ## Claim C7 — cancellation semantics and idempotence -/

/-- Claim C7 — for a task present in the active store, cancelTask marks it
`cancelled` with `cancelledAt`, removes it from the active store, pushes it to
history and returns true; for an absent task id it returns false and changes
nothing; consequently cancelling the same task twice returns true then
false. -/
theorem cancel_task_spec :
    (∀ (s : Svc) (tid : String) (now : Int) (t : Task),
       activeGet s tid = some t →
         (cancelTask s tid now).1 = true
       ∧ getTask (cancelTask s tid now).2 tid
           = some { t with status := .cancelled, cancelledAt := some now }
       ∧ tid ∉ (cancelTask s tid now).2.active
       ∧ tid ∈ (cancelTask s tid now).2.history)
  ∧ (∀ (s : Svc) (tid : String) (now : Int),
       activeGet s tid = none → cancelTask s tid now = (false, s))
  ∧ (∀ (s : Svc) (tid : String) (now now2 : Int) (t : Task),
       activeGet s tid = some t →
         (cancelTask (cancelTask s tid now).2 tid now2).1 = false) := by
  have habs : ∀ (s : Svc) (tid : String) (now : Int),
      activeGet s tid = none → cancelTask s tid now = (false, s) := by
    intro s tid now h
    unfold cancelTask
    rw [h]
  have hpres : ∀ (s : Svc) (tid : String) (now : Int) (t : Task),
      activeGet s tid = some t →
        (cancelTask s tid now).1 = true
      ∧ getTask (cancelTask s tid now).2 tid
          = some { t with status := .cancelled, cancelledAt := some now }
      ∧ tid ∉ (cancelTask s tid now).2.active
      ∧ tid ∈ (cancelTask s tid now).2.history := by
    intro s tid now t h
    unfold cancelTask
    rw [h]
    refine ⟨rfl, ?_, ?_, ?_⟩
    · rw [getTask_completeTask, getTask_setTask_self]
    · exact not_mem_removeId_self _ _
    · exact self_mem_trunc1000_append _ _
  refine ⟨hpres, habs, ?twice⟩
  case twice =>
    intro s tid now now2 t h
    have h2 : activeGet (cancelTask s tid now).2 tid = none := by
      unfold activeGet
      have : tid ∉ (cancelTask s tid now).2.active := (hpres s tid now t h).2.2.1
      simp [this]
    rw [habs _ _ _ h2]

theorem cancel_task_spec_witness :
    (cancelTask c1AfterStart "t1" 60000).1 = true
  ∧ (cancelTask (cancelTask c1AfterStart "t1" 60000).2 "t1" 60001).1 = false := by
  have hget : activeGet c1AfterStart "t1" = some
      { id := "t1", videoUrl := validUrl, actionType := "views", options := {},
        status := .running, createdAt := 50000, attempts := 0, maxAttempts := 3,
        provider := some "zefoy" } := by decide
  exact ⟨(cancel_task_spec.1 c1AfterStart "t1" 60000 _ hget).1,
         cancel_task_spec.2.2 c1AfterStart "t1" 60000 60001 _ hget⟩

/-! ## Claim C8 — deferred retry callback guard -/

/-- Claim C8 — when the retry timer fires for a task that is no longer in the
active store with status `retrying` (e.g. cancelled meanwhile), retryTask is a
no-op: the service state (tasks, stores, providers) is returned unchanged.
Otherwise the guard passes and the execution step is repeated with exactly the
provider name bound to the task. -/
theorem retry_fire_guard :
    (∀ (s : Svc) (tid : String),
       (∀ t, activeGet s tid = some t → t.status ≠ TaskStatus.retrying) →
       retryTaskStart s tid = RetryStartOutcome.noop ∧ retryFire s tid = s)
  ∧ (∀ (s : Svc) (tid : String) (t : Task) (pname : String),
       activeGet s tid = some t → t.status = TaskStatus.retrying →
       t.provider = some pname → (lookupProvider s.providers pname).isSome →
       retryTaskStart s tid = RetryStartOutcome.exec pname) := by
  constructor
  · intro s tid h
    have hstart : retryTaskStart s tid = RetryStartOutcome.noop := by
      unfold retryTaskStart
      cases hget : activeGet s tid with
      | none => rfl
      | some t => simp [h t hget]
    refine ⟨hstart, ?_⟩
    unfold retryFire
    rw [hstart]
  · intro s tid t pname hget hst hprov hlook
    unfold retryTaskStart
    rw [hget]
    rcases Option.isSome_iff_exists.mp hlook with ⟨p, hp⟩
    simp [hst, hprov, hp]

theorem retry_fire_guard_witness :
    retryFire c3AfterCancel.2 "t1" = c3AfterCancel.2
  ∧ retryTaskStart c1AfterFirstFail.1 "t1" = RetryStartOutcome.exec "zefoy" := by
  constructor
  · refine (retry_fire_guard.1 c3AfterCancel.2 "t1" ?_).2
    intro t ht
    have hnone : activeGet c3AfterCancel.2 "t1" = none := by decide
    rw [hnone] at ht
    cases ht
  · refine retry_fire_guard.2 c1AfterFirstFail.1 "t1"
      { id := "t1", videoUrl := validUrl, actionType := "views", options := {},
        status := .retrying, createdAt := 50000, attempts := 1, maxAttempts := 3,
        provider := some "zefoy", error := failRes.error }
      "zefoy" (by decide) rfl rfl (by decide)

/-! ## Claim C10 — maxAttempts override fallback -/

/-- Claim C10 — the task created by performAction gets
`options.maxAttempts || config.tiktok.maxRetries` as its `maxAttempts`:
an absent (`null`/`undefined`) or `0` override silently falls back to the
configured default, and only a nonzero override takes effect, so a caller
cannot request zero attempts.  The created task starts with `attempts = 0`. -/
theorem max_attempts_fallback :
    (∀ (s : Svc) (tid : String) (url : Option String) (kind : String)
       (o : TaskOptions) (defMax now : Int),
       validateVideoUrl url = true →
       getAvailableActions.contains kind = true →
       ∃ t, getTask (performActionStart s tid url kind o defMax now).2 tid = some t
         ∧ t.maxAttempts = resolveMaxAttempts defMax o
         ∧ t.attempts = 0)
  ∧ (∀ defMax : Int, resolveMaxAttempts defMax { maxAttempts := none } = defMax)
  ∧ (∀ defMax : Int, resolveMaxAttempts defMax { maxAttempts := some 0 } = defMax)
  ∧ (∀ defMax n : Int, n ≠ 0 →
       resolveMaxAttempts defMax { maxAttempts := some n } = n) := by
  refine ⟨?created, fun _ => rfl, fun _ => by simp [resolveMaxAttempts],
          fun defMax n h => by simp [resolveMaxAttempts, h]⟩
  case created =>
    intro s tid url kind o defMax now h1 h2
    unfold performActionStart
    simp only [h1, h2, Bool.true_eq_false, if_false]
    split
    · exact ⟨_, by rw [getTask_completeTask, getTask_setTask_self], rfl, rfl⟩
    · exact ⟨_, by rw [getTask_setTask_self], rfl, rfl⟩

theorem max_attempts_fallback_witness :
    (∃ t, getTask (performActionStart svc0 "t1" (some validUrl) "views"
            { maxAttempts := some 0 } 3 50000).2 "t1" = some t
        ∧ t.maxAttempts = resolveMaxAttempts 3 { maxAttempts := some 0 }
        ∧ t.attempts = 0)
  ∧ resolveMaxAttempts 3 { maxAttempts := some 0 } = 3
  ∧ resolveMaxAttempts 3 { maxAttempts := some 7 } = 7 := by
  exact ⟨max_attempts_fallback.1 svc0 "t1" (some validUrl) "views"
           { maxAttempts := some 0 } 3 50000 (by decide) (by decide),
         max_attempts_fallback.2.2.1 3,
         max_attempts_fallback.2.2.2 3 7 (by decide)⟩

/-! ## Claim C3 — interleaving semantics

The engine runs in a single cooperative scheduling domain; operations
interleave only at the `await` suspension points and at timer firings.  A
configuration is the service state together with the pending events: in-flight
initial executions, scheduled retry timers, and in-flight retry executions.
The step relation below has one constructor per atomic synchronous segment of
the source.  The `cancel` constructor carries the side conditions of the
*amended* claim: cancel is not invoked while the task's provider call is in
flight (the counterexample above shows the invariant fails without them). -/

inductive Ev where
  | inflight (tid : String)
  | timer (tid : String)
  | retryInflight (tid : String)
deriving DecidableEq, Repr

def evTid : Ev → String
  | .inflight tid => tid
  | .timer tid => tid
  | .retryInflight tid => tid

structure Conf where
  svc : Svc
  evs : List Ev

/-- Effect of a performAction call up to its await (plus the in-flight event
when a provider was selected and execution started). -/
def submitConf (defMax : Int) (c : Conf) (tid : String) (url : Option String)
    (kind : String) (o : TaskOptions) (now : Int) : Conf :=
  let res := performActionStart c.svc tid url kind o defMax now
  { svc := res.2,
    evs := c.evs ++ (match res.1 with
      | .started _ _ => [Ev.inflight tid]
      | _ => []) }

/-- Effect of an in-flight performAction resuming with result `r` (plus the
retry timer when one was scheduled). -/
def finishConf (c : Conf) (tid : String) (r : ActionResult) (now : Int) : Conf :=
  let res := performActionFinish c.svc tid r now
  { svc := res.1,
    evs := (c.evs.erase (Ev.inflight tid))
      ++ (if res.2 then [Ev.timer tid] else []) }

/-- Effect of the retry timer firing: the guard either no-ops, fails the task
through the catch (provider missing), or starts the retry execution. -/
def fireConf (c : Conf) (tid : String) : Conf :=
  { svc := retryFire c.svc tid,
    evs := (c.evs.erase (Ev.timer tid))
      ++ (match retryTaskStart c.svc tid with
          | .exec _ => [Ev.retryInflight tid]
          | _ => []) }

/-- Effect of an in-flight retry execution resuming with result `r`. -/
def retryFinishConf (c : Conf) (tid : String) (r : ActionResult) (now : Int) : Conf :=
  { svc := retryTaskFinish c.svc tid r now,
    evs := c.evs.erase (Ev.retryInflight tid) }

/-- Effect of cancelTask (synchronous, no suspension point). -/
def cancelConf (c : Conf) (tid : String) (now : Int) : Conf :=
  { svc := (cancelTask c.svc tid now).2, evs := c.evs }

/-- Small-step relation of the orchestrator.  `providersUpdate` abstracts the
updateStats/resetAvailability calls performed inside provider executions and
by resetProviders, which touch only provider state.  The side conditions on
`cancel` restrict the relation to runs where cancelTask does not race an
in-flight provider call for the same task. -/
inductive Step (defMax : Int) : Conf → Conf → Prop
  | submit (c : Conf) (tid : String) (url : Option String) (kind : String)
      (o : TaskOptions) (now : Int) (hfresh : getTask c.svc tid = none) :
      Step defMax c (submitConf defMax c tid url kind o now)
  | finish (c : Conf) (tid : String) (r : ActionResult) (now : Int)
      (hev : Ev.inflight tid ∈ c.evs) :
      Step defMax c (finishConf c tid r now)
  | fire (c : Conf) (tid : String) (hev : Ev.timer tid ∈ c.evs) :
      Step defMax c (fireConf c tid)
  | retryFinish (c : Conf) (tid : String) (r : ActionResult) (now : Int)
      (hev : Ev.retryInflight tid ∈ c.evs) :
      Step defMax c (retryFinishConf c tid r now)
  | cancel (c : Conf) (tid : String) (now : Int)
      (hno1 : Ev.inflight tid ∉ c.evs) (hno2 : Ev.retryInflight tid ∉ c.evs) :
      Step defMax c (cancelConf c tid now)
  | providersUpdate (c : Conf) (ps : List (String × ProviderState)) :
      Step defMax c { svc := { c.svc with providers := ps }, evs := c.evs }

/-- The TikTokService constructor state: registered providers, empty stores,
nothing pending. -/
def initConf (provs : List (String × ProviderState)) : Conf :=
  { svc := { providers := provs, tasks := fun _ => none,
             active := [], history := [] },
    evs := [] }

/-- Reachability from the constructor state. -/
def Reach (defMax : Int) (provs : List (String × ProviderState)) (c : Conf) : Prop :=
  Relation.ReflTransGen (Step defMax) (initConf provs) c

/-! ### Service-level invariant -/

/-- Store invariant of the service state: duplicate-free stores, no task in
both stores, every stored id denotes a task object, history holds only
terminal tasks and the active store only non-terminal ones. -/
structure SInv (s : Svc) : Prop where
  nodupActive : s.active.Nodup
  nodupHist : s.history.Nodup
  disj : ∀ id ∈ s.active, id ∉ s.history
  activeArena : ∀ id ∈ s.active, getTask s id ≠ none
  histArena : ∀ id ∈ s.history, getTask s id ≠ none
  histTerminal : ∀ id ∈ s.history, ∀ t, getTask s id = some t → isTerminal t.status = true
  activeNonTerminal : ∀ id ∈ s.active, ∀ t, getTask s id = some t → isTerminal t.status = false

theorem getTask_setTask (s : Svc) (tid k : String) (t : Task) :
    getTask (setTask s tid t) k = if k = tid then some t else getTask s k := rfl

theorem mem_addActive_self (l : List String) (tid : String) :
    tid ∈ addActive l tid := by
  unfold addActive
  split
  · assumption
  · exact List.mem_append_right _ (List.mem_singleton_self tid)

theorem mem_addActive_of_mem {l : List String} {x : String} (h : x ∈ l)
    (tid : String) : x ∈ addActive l tid := by
  unfold addActive
  split
  · exact h
  · exact List.mem_append_left _ h

theorem addActive_eq_append {l : List String} {tid : String} (h : tid ∉ l) :
    addActive l tid = l ++ [tid] := by
  unfold addActive
  simp [h]

/-- `completeTask (setTask s tid t) tid` — the shape of every terminal
transition in the source — preserves the store invariant when `tid` is in the
active store and `t` is terminal. -/
theorem sinv_finalize {s : Svc} (inv : SInv s) {tid : String} (t : Task)
    (hmem : tid ∈ s.active) (hterm : isTerminal t.status = true) :
    SInv (completeTask (setTask s tid t) tid) := by
  have hnoth : tid ∉ s.history := inv.disj tid hmem
  have hact : (completeTask (setTask s tid t) tid).active = removeId s.active tid := rfl
  have hhist : (completeTask (setTask s tid t) tid).history
      = trunc1000 (s.history ++ [tid]) := rfl
  have hget : ∀ k, getTask (completeTask (setTask s tid t) tid) k
      = if k = tid then some t else getTask s k := fun k => rfl
  refine ⟨?_, ?_, ?_, ?_, ?_, ?_, ?_⟩
  · rw [hact]; exact nodup_removeId inv.nodupActive tid
  · rw [hhist]
    apply nodup_trunc1000
    rw [List.nodup_append]
    refine ⟨inv.nodupHist, List.nodup_singleton tid, ?_⟩
    intro x hx hx1
    rw [List.mem_singleton] at hx1
    subst hx1
    exact hnoth hx
  · intro id hid hidh
    rw [hact] at hid
    rw [hhist] at hidh
    obtain ⟨hid1, hid2⟩ := mem_removeId.mp hid
    rcases List.mem_append.mp (mem_of_mem_trunc1000 hidh) with h1 | h1
    · exact inv.disj id hid1 h1
    · exact hid2 (List.mem_singleton.mp h1)
  · intro id hid
    rw [hact] at hid
    rw [hget id]
    obtain ⟨hid1, _⟩ := mem_removeId.mp hid
    split
    · simp
    · exact inv.activeArena id hid1
  · intro id hid
    rw [hget id]
    split
    · simp
    · rename_i hne
      rw [hhist] at hid
      rcases List.mem_append.mp (mem_of_mem_trunc1000 hid) with h1 | h1
      · exact inv.histArena id h1
      · exact absurd (List.mem_singleton.mp h1) hne
  · intro id hid t2 ht2
    rw [hget id] at ht2
    split at ht2
    · cases ht2; exact hterm
    · rename_i hne
      rw [hhist] at hid
      rcases List.mem_append.mp (mem_of_mem_trunc1000 hid) with h1 | h1
      · exact inv.histTerminal id h1 t2 ht2
      · exact absurd (List.mem_singleton.mp h1) hne
  · intro id hid t2 ht2
    rw [hact] at hid
    obtain ⟨hid1, hid2⟩ := mem_removeId.mp hid
    rw [hget id] at ht2
    rw [if_neg hid2] at ht2
    exact inv.activeNonTerminal id hid1 t2 ht2

/-- `setTask` of a non-terminal task already in the active store preserves
the store invariant. -/
theorem sinv_setTask_active {s : Svc} (inv : SInv s) {tid : String} (t : Task)
    (hmem : tid ∈ s.active) (hnt : isTerminal t.status = false) :
    SInv (setTask s tid t) := by
  have hnoth : tid ∉ s.history := inv.disj tid hmem
  refine ⟨inv.nodupActive, inv.nodupHist, inv.disj, ?_, ?_, ?_, ?_⟩
  · intro id hid
    rw [getTask_setTask]
    split
    · simp
    · exact inv.activeArena id hid
  · intro id hid
    rw [getTask_setTask]
    split
    · simp
    · exact inv.histArena id hid
  · intro id hid t2 ht2
    rw [getTask_setTask] at ht2
    split at ht2
    · rename_i he; subst he; exact absurd hid hnoth
    · exact inv.histTerminal id hid t2 ht2
  · intro id hid t2 ht2
    rw [getTask_setTask] at ht2
    split at ht2
    · cases ht2; exact hnt
    · exact inv.activeNonTerminal id hid t2 ht2

/-- Creating a fresh pending task (the task-creation prefix of performAction)
preserves the store invariant. -/
theorem sinv_createTask {s : Svc} (inv : SInv s) {tid : String} (t : Task)
    (hfresh : getTask s tid = none) (hnt : isTerminal t.status = false) :
    SInv { s with tasks := fun k => if k = tid then some t else s.tasks k,
                  active := addActive s.active tid } := by
  have hnota : tid ∉ s.active := fun h => inv.activeArena tid h hfresh
  have hnoth : tid ∉ s.history := fun h => inv.histArena tid h hfresh
  have hget : ∀ k, getTask { s with
      tasks := fun k => if k = tid then some t else s.tasks k,
      active := addActive s.active tid } k
      = if k = tid then some t else getTask s k := fun k => rfl
  refine ⟨?_, inv.nodupHist, ?_, ?_, ?_, ?_, ?_⟩
  · rw [addActive_eq_append hnota, List.nodup_append]
    refine ⟨inv.nodupActive, List.nodup_singleton tid, ?_⟩
    intro x hx hx1
    rw [List.mem_singleton] at hx1
    subst hx1
    exact hnota hx
  · intro id hid
    rw [addActive_eq_append hnota] at hid
    rcases List.mem_append.mp hid with h1 | h1
    · exact inv.disj id h1
    · rw [List.mem_singleton] at h1; subst h1; exact hnoth
  · intro id hid
    rw [hget id]
    split
    · simp
    · rename_i hne
      rw [addActive_eq_append hnota] at hid
      rcases List.mem_append.mp hid with h1 | h1
      · exact inv.activeArena id h1
      · exact absurd (List.mem_singleton.mp h1) hne
  · intro id hid
    rw [hget id]
    split
    · simp
    · exact inv.histArena id hid
  · intro id hid t2 ht2
    rw [hget id] at ht2
    split at ht2
    · rename_i he; subst he; exact absurd hid hnoth
    · exact inv.histTerminal id hid t2 ht2
  · intro id hid t2 ht2
    rw [hget id] at ht2
    split at ht2
    · cases ht2; exact hnt
    · rename_i hne
      rw [addActive_eq_append hnota] at hid
      rcases List.mem_append.mp hid with h1 | h1
      · exact inv.activeNonTerminal id h1 t2 ht2
      · exact absurd (List.mem_singleton.mp h1) hne

/-! ### Configuration invariant -/

/-- Invariant of reachable configurations: the store invariant, plus pending
events referring to existing tasks, at most one pending event per task, and
in-flight executions (initial or retry) belonging to tasks still in the
active store. -/
structure Inv (c : Conf) : Prop where
  svcInv : SInv c.svc
  evArena : ∀ e ∈ c.evs, getTask c.svc (evTid e) ≠ none
  evUniq : c.evs.Pairwise (fun a b => evTid a ≠ evTid b)
  inflightActive : ∀ tid, Ev.inflight tid ∈ c.evs → tid ∈ c.svc.active
  retryInflightActive : ∀ tid, Ev.retryInflight tid ∈ c.evs → tid ∈ c.svc.active

theorem evs_nodup {evs : List Ev}
    (hu : evs.Pairwise (fun a b => evTid a ≠ evTid b)) : evs.Nodup :=
  hu.imp fun h heq => h (congrArg evTid heq)

theorem evTid_ne_of_mem_erase {evs : List Ev} {e : Ev}
    (hu : evs.Pairwise (fun a b => evTid a ≠ evTid b)) (he : e ∈ evs) :
    ∀ e2 ∈ evs.erase e, evTid e2 ≠ evTid e := by
  intro e2 h2
  obtain ⟨hne, hmem⟩ := ((evs_nodup hu).mem_erase_iff).mp h2
  exact List.Pairwise.forall (fun _ _ h => h.symm) hu hmem he hne

theorem evUniq_erase_append_single {evs : List Ev} {e x : Ev}
    (hu : evs.Pairwise (fun a b => evTid a ≠ evTid b)) (he : e ∈ evs)
    (hx : evTid x = evTid e) :
    ((evs.erase e) ++ [x]).Pairwise (fun a b => evTid a ≠ evTid b) := by
  rw [List.pairwise_append]
  refine ⟨hu.sublist (evs.erase_sublist e), List.pairwise_singleton _ _, ?_⟩
  intro a ha b hb
  rw [List.mem_singleton] at hb
  subst hb
  rw [hx]
  exact evTid_ne_of_mem_erase hu he a ha

theorem activeGet_eq_some {s : Svc} {tid : String} {t : Task}
    (h : activeGet s tid = some t) : tid ∈ s.active ∧ getTask s tid = some t := by
  unfold activeGet at h
  split at h
  · exact ⟨by assumption, h⟩
  · cases h

theorem retryTaskStart_some_of_not_noop {s : Svc} {tid : String}
    (h : retryTaskStart s tid ≠ RetryStartOutcome.noop) :
    ∃ t, activeGet s tid = some t ∧ t.status = TaskStatus.retrying := by
  unfold retryTaskStart at h
  cases hag : activeGet s tid with
  | none => rw [hag] at h; exact absurd rfl h
  | some t =>
    rw [hag] at h
    by_cases hst : t.status = TaskStatus.retrying
    · exact ⟨t, rfl, hst⟩
    · simp [hst] at h

/-- Configuration-level lemma for a terminal transition that consumes the
pending event `e` of the same task. -/
theorem inv_finalize_erase {c : Conf} (hinv : Inv c) {tid : String} (t : Task)
    {e : Ev} (he : e ∈ c.evs) (hetid : evTid e = tid)
    (hmem : tid ∈ c.svc.active) (hterm : isTerminal t.status = true) :
    Inv ⟨completeTask (setTask c.svc tid t) tid, c.evs.erase e⟩ := by
  have hget : ∀ k, getTask (completeTask (setTask c.svc tid t) tid) k
      = if k = tid then some t else getTask c.svc k := fun k => rfl
  have hne : ∀ e2 ∈ c.evs.erase e, evTid e2 ≠ tid := by
    intro e2 h2
    rw [← hetid]
    exact evTid_ne_of_mem_erase hinv.evUniq he e2 h2
  refine ⟨sinv_finalize hinv.svcInv t hmem hterm, ?_, ?_, ?_, ?_⟩
  · intro e2 h2
    rw [hget]
    split
    · simp
    · exact hinv.evArena e2 (List.mem_of_mem_erase h2)
  · exact hinv.evUniq.sublist (c.evs.erase_sublist e)
  · intro tid2 h2
    have hmem2 := hinv.inflightActive tid2 (List.mem_of_mem_erase h2)
    have hne2 : tid2 ≠ tid := hne _ h2
    exact mem_removeId.mpr ⟨hmem2, hne2⟩
  · intro tid2 h2
    have hmem2 := hinv.retryInflightActive tid2 (List.mem_of_mem_erase h2)
    have hne2 : tid2 ≠ tid := hne _ h2
    exact mem_removeId.mpr ⟨hmem2, hne2⟩

/-- Configuration-level lemma for a terminal transition of a task with no
pending in-flight event (cancellation under the amended side condition). -/
theorem inv_finalize_keep {c : Conf} (hinv : Inv c) {tid : String} (t : Task)
    (hno1 : Ev.inflight tid ∉ c.evs) (hno2 : Ev.retryInflight tid ∉ c.evs)
    (hmem : tid ∈ c.svc.active) (hterm : isTerminal t.status = true) :
    Inv ⟨completeTask (setTask c.svc tid t) tid, c.evs⟩ := by
  have hget : ∀ k, getTask (completeTask (setTask c.svc tid t) tid) k
      = if k = tid then some t else getTask c.svc k := fun k => rfl
  refine ⟨sinv_finalize hinv.svcInv t hmem hterm, ?_, hinv.evUniq, ?_, ?_⟩
  · intro e2 h2
    rw [hget]
    split
    · simp
    · exact hinv.evArena e2 h2
  · intro tid2 h2
    have hmem2 := hinv.inflightActive tid2 h2
    have hne2 : tid2 ≠ tid := by
      intro heq
      subst heq
      exact hno1 h2
    exact mem_removeId.mpr ⟨hmem2, hne2⟩
  · intro tid2 h2
    have hmem2 := hinv.retryInflightActive tid2 h2
    have hne2 : tid2 ≠ tid := by
      intro heq
      subst heq
      exact hno2 h2
    exact mem_removeId.mpr ⟨hmem2, hne2⟩

/-- Configuration-level lemma for an event-consuming step that leaves the
service state untouched. -/
theorem inv_erase {c : Conf} (hinv : Inv c) (e : Ev) :
    Inv ⟨c.svc, c.evs.erase e⟩ := by
  refine ⟨hinv.svcInv, ?_, hinv.evUniq.sublist (c.evs.erase_sublist e), ?_, ?_⟩
  · intro e2 h2
    exact hinv.evArena e2 (List.mem_of_mem_erase h2)
  · intro tid2 h2
    exact hinv.inflightActive tid2 (List.mem_of_mem_erase h2)
  · intro tid2 h2
    exact hinv.retryInflightActive tid2 (List.mem_of_mem_erase h2)

/-- Configuration-level lemma for the retry-scheduling branch of
performActionFinish: the task turns `retrying`, the in-flight event is
consumed and a timer event for the same task is created. -/
theorem inv_retry_schedule {c : Conf} (hinv : Inv c) {tid : String} (t : Task)
    (he : Ev.inflight tid ∈ c.evs)
    (hmem : tid ∈ c.svc.active) (hnt : isTerminal t.status = false) :
    Inv ⟨setTask c.svc tid t,
         (c.evs.erase (Ev.inflight tid)) ++ [Ev.timer tid]⟩ := by
  refine ⟨sinv_setTask_active hinv.svcInv t hmem hnt, ?_, ?_, ?_, ?_⟩
  · intro e2 h2
    rw [getTask_setTask]
    split
    · simp
    · rcases List.mem_append.mp h2 with h3 | h3
      · exact hinv.evArena e2 (List.mem_of_mem_erase h3)
      · rw [List.mem_singleton] at h3
        subst h3
        rename_i hne
        exact absurd rfl hne
  · exact evUniq_erase_append_single hinv.evUniq he rfl
  · intro tid2 h2
    rcases List.mem_append.mp h2 with h3 | h3
    · exact hinv.inflightActive tid2 (List.mem_of_mem_erase h3)
    · rw [List.mem_singleton] at h3
      cases h3
  · intro tid2 h2
    rcases List.mem_append.mp h2 with h3 | h3
    · exact hinv.retryInflightActive tid2 (List.mem_of_mem_erase h3)
    · rw [List.mem_singleton] at h3
      cases h3

/-- Configuration-level lemma for the exec branch of a firing retry timer:
the timer is consumed and an in-flight retry event is created; the service
state is untouched. -/
theorem inv_retry_exec {c : Conf} (hinv : Inv c) {tid : String}
    (he : Ev.timer tid ∈ c.evs) (hmem : tid ∈ c.svc.active)
    (harena : getTask c.svc tid ≠ none) :
    Inv ⟨c.svc, (c.evs.erase (Ev.timer tid)) ++ [Ev.retryInflight tid]⟩ := by
  refine ⟨hinv.svcInv, ?_, ?_, ?_, ?_⟩
  · intro e2 h2
    rcases List.mem_append.mp h2 with h3 | h3
    · exact hinv.evArena e2 (List.mem_of_mem_erase h3)
    · rw [List.mem_singleton] at h3
      subst h3
      exact harena
  · exact evUniq_erase_append_single hinv.evUniq he rfl
  · intro tid2 h2
    rcases List.mem_append.mp h2 with h3 | h3
    · exact hinv.inflightActive tid2 (List.mem_of_mem_erase h3)
    · rw [List.mem_singleton] at h3
      cases h3
  · intro tid2 h2
    rcases List.mem_append.mp h2 with h3 | h3
    · exact hinv.retryInflightActive tid2 (List.mem_of_mem_erase h3)
    · rw [List.mem_singleton] at h3
      cases h3
      exact hmem

/-- Configuration-level lemma for the no-provider branch of performAction:
a fresh pending task is created and immediately finalized as failed. -/
theorem inv_submit_fail {c : Conf} (hinv : Inv c) {tid : String} (tP tF : Task)
    (hfresh : getTask c.svc tid = none) (hP : isTerminal tP.status = false)
    (hF : isTerminal tF.status = true) :
    Inv ⟨completeTask
           (setTask { c.svc with
                      tasks := fun k => if k = tid then some tP else c.svc.tasks k,
                      active := addActive c.svc.active tid } tid tF) tid,
         c.evs⟩ := by
  have hs1 : SInv { c.svc with
      tasks := fun k => if k = tid then some tP else c.svc.tasks k,
      active := addActive c.svc.active tid } :=
    sinv_createTask hinv.svcInv tP hfresh hP
  have hget : ∀ k, getTask (completeTask
      (setTask { c.svc with
                 tasks := fun k => if k = tid then some tP else c.svc.tasks k,
                 active := addActive c.svc.active tid } tid tF) tid) k
      = if k = tid then some tF else if k = tid then some tP else getTask c.svc k :=
    fun k => rfl
  have hne : ∀ e ∈ c.evs, evTid e ≠ tid := by
    intro e he heq
    exact hinv.evArena e he (heq ▸ hfresh)
  refine ⟨sinv_finalize hs1 tF (mem_addActive_self _ _) hF, ?_, hinv.evUniq, ?_, ?_⟩
  · intro e2 h2
    rw [hget]
    split
    · simp
    · exact hinv.evArena e2 h2
  · intro tid2 h2
    have hmem2 := hinv.inflightActive tid2 h2
    exact mem_removeId.mpr ⟨mem_addActive_of_mem hmem2 tid, hne _ h2⟩
  · intro tid2 h2
    have hmem2 := hinv.retryInflightActive tid2 h2
    exact mem_removeId.mpr ⟨mem_addActive_of_mem hmem2 tid, hne _ h2⟩

/-- Configuration-level lemma for the started branch of performAction: a
fresh pending task is created, bound to a provider, set `running`, and an
in-flight event is appended. -/
theorem inv_submit_start {c : Conf} (hinv : Inv c) {tid : String} (tP tR : Task)
    (hfresh : getTask c.svc tid = none) (hP : isTerminal tP.status = false)
    (hR : isTerminal tR.status = false) :
    Inv ⟨setTask { c.svc with
                   tasks := fun k => if k = tid then some tP else c.svc.tasks k,
                   active := addActive c.svc.active tid } tid tR,
         c.evs ++ [Ev.inflight tid]⟩ := by
  have hs1 : SInv { c.svc with
      tasks := fun k => if k = tid then some tP else c.svc.tasks k,
      active := addActive c.svc.active tid } :=
    sinv_createTask hinv.svcInv tP hfresh hP
  have hget : ∀ k, getTask (setTask { c.svc with
      tasks := fun k => if k = tid then some tP else c.svc.tasks k,
      active := addActive c.svc.active tid } tid tR) k
      = if k = tid then some tR else if k = tid then some tP else getTask c.svc k :=
    fun k => rfl
  have hne : ∀ e ∈ c.evs, evTid e ≠ tid := by
    intro e he heq
    exact hinv.evArena e he (heq ▸ hfresh)
  refine ⟨sinv_setTask_active hs1 tR (mem_addActive_self _ _) hR, ?_, ?_, ?_, ?_⟩
  · intro e2 h2
    rw [hget]
    split
    · simp
    · rcases List.mem_append.mp h2 with h3 | h3
      · exact hinv.evArena e2 h3
      · rw [List.mem_singleton] at h3
        subst h3
        rename_i hx
        exact absurd rfl hx
  · rw [List.pairwise_append]
    refine ⟨hinv.evUniq, List.pairwise_singleton _ _, ?_⟩
    intro a ha b hb
    rw [List.mem_singleton] at hb
    subst hb
    exact hne a ha
  · intro tid2 h2
    rcases List.mem_append.mp h2 with h3 | h3
    · exact mem_addActive_of_mem (hinv.inflightActive tid2 h3) tid
    · rw [List.mem_singleton] at h3
      cases h3
      exact mem_addActive_self _ _
  · intro tid2 h2
    rcases List.mem_append.mp h2 with h3 | h3
    · exact mem_addActive_of_mem (hinv.retryInflightActive tid2 h3) tid
    · rw [List.mem_singleton] at h3
      cases h3

theorem performActionStart_invalid_url {url : Option String}
    (h : validateVideoUrl url = false) (s : Svc) (tid kind : String)
    (o : TaskOptions) (defMax now : Int) :
    performActionStart s tid url kind o defMax now
      = (.rejected { success := false,
                     error := some "Invalid TikTok video URL" }, s) := by
  unfold performActionStart
  simp [h]

theorem performActionStart_invalid_kind {url : Option String} {kind : String}
    (h1 : validateVideoUrl url = true)
    (h2 : getAvailableActions.contains kind = false) (s : Svc) (tid : String)
    (o : TaskOptions) (defMax now : Int) :
    performActionStart s tid url kind o defMax now
      = (.rejected { success := false,
                     error := some ("Invalid action type: " ++ kind) }, s) := by
  unfold performActionStart
  rw [h1, h2]
  simp

/-- Every step of the (cancel-restricted) orchestrator semantics preserves
the configuration invariant. -/
theorem inv_step {defMax : Int} {c c2 : Conf} (hinv : Inv c)
    (hstep : Step defMax c c2) : Inv c2 := by
  cases hstep with
  | submit tid url kind o now hfresh =>
    unfold submitConf
    by_cases hv : validateVideoUrl url = true
    · by_cases hk : getAvailableActions.contains kind = true
      · unfold performActionStart
        simp only [hv, hk, Bool.true_eq_false, if_false]
        split
        · simp only [List.append_nil]
          exact inv_submit_fail hinv _ _ hfresh rfl rfl
        · exact inv_submit_start hinv _ _ hfresh rfl rfl
      · rw [Bool.not_eq_true] at hk
        rw [performActionStart_invalid_kind hv hk]
        simp only [List.append_nil]
        exact ⟨hinv.svcInv, hinv.evArena, hinv.evUniq,
               hinv.inflightActive, hinv.retryInflightActive⟩
    · rw [Bool.not_eq_true] at hv
      rw [performActionStart_invalid_url hv]
      simp only [List.append_nil]
      exact ⟨hinv.svcInv, hinv.evArena, hinv.evUniq,
             hinv.inflightActive, hinv.retryInflightActive⟩
  | finish tid r now hev =>
    have hmem : tid ∈ c.svc.active := hinv.inflightActive tid hev
    have harena : getTask c.svc tid ≠ none := hinv.svcInv.activeArena tid hmem
    obtain ⟨t, ht⟩ := Option.ne_none_iff_exists'.mp harena
    unfold finishConf performActionFinish
    rw [ht]
    split
    · rename_i heq
      exact absurd heq (by simp)
    · rename_i task heq
      dsimp only
      split
      · simp only [Bool.false_eq_true, if_false, List.append_nil]
        apply inv_finalize_erase hinv _ hev rfl hmem
        rfl
      · split
        · simp only [eq_self_iff_true, if_true]
          apply inv_retry_schedule hinv _ hev hmem
          rfl
        · simp only [Bool.false_eq_true, if_false, List.append_nil]
          apply inv_finalize_erase hinv _ hev rfl hmem
          rfl
  | fire tid hev =>
    unfold fireConf
    rcases hstart : retryTaskStart c.svc tid with _ | pname | pname
    · simp only [retryFire, hstart, List.append_nil]
      exact inv_erase hinv _
    · obtain ⟨t, hag, hst⟩ := retryTaskStart_some_of_not_noop (by rw [hstart]; simp)
      obtain ⟨hmem, hgt⟩ := activeGet_eq_some hag
      simp only [retryFire, hstart, List.append_nil]
      unfold retryTaskFailPath
      rw [hgt]
      apply inv_finalize_erase hinv _ hev rfl hmem
      rfl
    · obtain ⟨t, hag, hst⟩ := retryTaskStart_some_of_not_noop (by rw [hstart]; simp)
      obtain ⟨hmem, hgt⟩ := activeGet_eq_some hag
      simp only [retryFire, hstart]
      exact inv_retry_exec hinv hev hmem (by rw [hgt]; simp)
  | retryFinish tid r now hev =>
    have hmem : tid ∈ c.svc.active := hinv.retryInflightActive tid hev
    have harena : getTask c.svc tid ≠ none := hinv.svcInv.activeArena tid hmem
    obtain ⟨t, ht⟩ := Option.ne_none_iff_exists'.mp harena
    unfold retryFinishConf retryTaskFinish
    rw [ht]
    split
    · rename_i heq
      exact absurd heq (by simp)
    · rename_i task heq
      dsimp only
      split
      · apply inv_finalize_erase hinv _ hev rfl hmem
        rfl
      · apply inv_finalize_erase hinv _ hev rfl hmem
        rfl
  | cancel tid now hno1 hno2 =>
    unfold cancelConf cancelTask
    cases hag : activeGet c.svc tid with
    | none =>
      exact ⟨hinv.svcInv, hinv.evArena, hinv.evUniq,
             hinv.inflightActive, hinv.retryInflightActive⟩
    | some t =>
      obtain ⟨hmem, _⟩ := activeGet_eq_some hag
      apply inv_finalize_keep hinv _ hno1 hno2 hmem
      rfl
  | providersUpdate ps =>
    exact ⟨⟨hinv.svcInv.nodupActive, hinv.svcInv.nodupHist, hinv.svcInv.disj,
            hinv.svcInv.activeArena, hinv.svcInv.histArena,
            hinv.svcInv.histTerminal, hinv.svcInv.activeNonTerminal⟩,
           hinv.evArena, hinv.evUniq, hinv.inflightActive,
           hinv.retryInflightActive⟩

theorem inv_init (provs : List (String × ProviderState)) : Inv (initConf provs) := by
  refine ⟨⟨List.nodup_nil, List.nodup_nil, ?_, ?_, ?_, ?_, ?_⟩,
          ?_, List.Pairwise.nil, ?_, ?_⟩ <;>
    (intro a ha; cases ha)

/-- Claim C3 (amended) — in every configuration reachable under the proviso
that cancelTask is never invoked while that task's provider call (initial or
retry execution) is in flight: the active and history stores are
duplicate-free, no task id is in both stores, every task in history is
terminal, and every task in the active store is non-terminal — hence each
task moves from active to history at most once, on its terminal transition.
Without the proviso the counterexample above shows a cancelled task is pushed
to history a second time by the resuming in-flight call. -/
theorem store_exclusivity (defMax : Int) (provs : List (String × ProviderState))
    (c : Conf) (h : Reach defMax provs c) :
    c.svc.active.Nodup
  ∧ c.svc.history.Nodup
  ∧ (∀ id ∈ c.svc.active, id ∉ c.svc.history)
  ∧ (∀ id ∈ c.svc.history, ∀ t, getTask c.svc id = some t →
       isTerminal t.status = true)
  ∧ (∀ id ∈ c.svc.active, ∀ t, getTask c.svc id = some t →
       isTerminal t.status = false) := by
  have hinv : Inv c := by
    induction h with
    | refl => exact inv_init provs
    | tail _ hstep ih => exact inv_step ih hstep
  exact ⟨hinv.svcInv.nodupActive, hinv.svcInv.nodupHist, hinv.svcInv.disj,
         hinv.svcInv.histTerminal, hinv.svcInv.activeNonTerminal⟩

theorem store_exclusivity_witness :
    (submitConf 3 (initConf [("zefoy", zefoy0)]) "t1" (some validUrl) "views"
        {} 50000).svc.active.Nodup
  ∧ (∀ id ∈ (submitConf 3 (initConf [("zefoy", zefoy0)]) "t1" (some validUrl)
        "views" {} 50000).svc.active,
       id ∉ (submitConf 3 (initConf [("zefoy", zefoy0)]) "t1" (some validUrl)
        "views" {} 50000).svc.history) := by
  have hr : Reach 3 [("zefoy", zefoy0)]
      (submitConf 3 (initConf [("zefoy", zefoy0)]) "t1" (some validUrl) "views"
        {} 50000) :=
    Relation.ReflTransGen.single
      (Step.submit _ "t1" (some validUrl) "views" {} 50000 rfl)
  have h := store_exclusivity 3 [("zefoy", zefoy0)] _ hr
  exact ⟨h.1, h.2.2.1⟩

end TTBot
